import Mathlib

/-!
Verification development for the Singapore Bridge rules engine of the
sg-cam-bridge-bot repository.

The data model and the operations below are shallow embeddings of the
backend described in the repository (Game/Player state, `valid_cards`,
the `get_game` snapshot endpoint).  Code of the repository that is only
described — the `bridge.py` trick/bidding/scoring internals — is modelled
from the specification text, and each such definition is marked
`Modelled from the spec:` in its doc comment.
-/

/-- A card suit: Clubs, Diamonds, Hearts, Spades.  The single-character
encodings `C D H S` of the repository map to these constructors. -/
inductive Suit
  | C
  | D
  | H
  | S
deriving DecidableEq, Repr

/-- A card: suit plus rank.  Ranks are encoded 2–14 with Jack = 11,
Queen = 12, King = 13, Ace = 14, mirroring the `A K Q J T 9 … 2`
encoding of the repository. -/
structure Card where
  suit : Suit
  rank : Nat
deriving DecidableEq, Repr

instance : Inhabited Card := ⟨⟨Suit.C, 2⟩⟩

/-- The 52-card deck: every suit paired with every rank 2–14. -/
def deck : List Card :=
  [Suit.C, Suit.D, Suit.H, Suit.S].flatMap fun s =>
    (List.range 13).map fun i => ⟨s, i + 2⟩

/-- A seated player, as in the backend `Player` class: Telegram id,
display name, hand of cards, AI flag, tricks won. -/
structure Player where
  id : String
  name : String
  hand : List Card
  isAI : Bool
  tricks : Nat
deriving DecidableEq, Repr

instance : Inhabited Player := ⟨⟨"", "", [], false, 0⟩⟩

/-- A bid strain: one of the four suits or No-Trump. -/
inductive Strain
  | C
  | D
  | H
  | S
  | NT
deriving DecidableEq, Repr

/-- Strain order for bid comparison: Clubs < Diamonds < Hearts < Spades < NT. -/
def strainRank : Strain → Nat
  | Strain.C => 0
  | Strain.D => 1
  | Strain.H => 2
  | Strain.S => 3
  | Strain.NT => 4

/-- The trump suit fixed by a winning bid: the bid's suit, or none for NT. -/
def strainTrump : Strain → Option Suit
  | Strain.C => some Suit.C
  | Strain.D => some Suit.D
  | Strain.H => some Suit.H
  | Strain.S => some Suit.S
  | Strain.NT => none

/-- A non-pass bid: numeric level 1–7 plus strain (`1C` … `7N`). -/
structure Bid where
  level : Nat
  strain : Strain
deriving DecidableEq, Repr

/-- Level-then-suit bid ordering: `a` strictly exceeds `b` when its level
is higher, or levels tie and its strain ranks higher. -/
def bidGt (a b : Bid) : Bool :=
  b.level < a.level || (b.level == a.level && strainRank b.strain < strainRank a.strain)

/-- An action submitted during bidding: PASS or a concrete bid. -/
inductive BidAction
  | pass
  | bid (b : Bid)
deriving DecidableEq, Repr

/-- The aggregate game state, following the backend `Game` class:
phase 0=JOIN 1=BID 2=CALL 3=PLAY 4=END; `players[0]` leads the current
trick and `currentTrick[i]` is the card played from seat `i`. -/
structure Game where
  id : String
  players : List Player
  phase : Nat
  activeIdx : Option Nat
  bid : Option (Bid × Nat)
  passes : Nat
  declarer : Option Nat
  partnerCard : Option Card
  partner : Option Nat
  trump : Option Suit
  contract : Nat
  currentTrick : List (Option Card)
  trumpBroken : Bool
deriving DecidableEq, Repr

/-- `valid_cards`, embedded from the backend source: when seat 0's trick
slot is empty the player is leading, and trump cards are filtered out
while a trump suit exists and trump is unbroken, falling back to the
whole hand if the filter leaves nothing; otherwise cards following the
lead suit, falling back to the whole hand when none follow. -/
def valid_cards (trump : Option Suit) (trumpBroken : Bool)
    (currentTrick : List (Option Card)) (hand : List Card) : List Card :=
  match currentTrick.getD 0 none with
  | none =>
    let result :=
      if trump.isSome && !trumpBroken then
        hand.filter (fun c => !(trump == some c.suit))
      else hand
    if result.isEmpty then hand else result
  | some lead =>
    let same_suit := hand.filter (fun c => c.suit == lead.suit)
    if same_suit.isEmpty then hand else same_suit

/-- The game-level legal-play query: `valid_cards` applied to the game's
trump, trump-broken flag and current trick. -/
def validCardsG (g : Game) (hand : List Card) : List Card :=
  valid_cards g.trump g.trumpBroken g.currentTrick hand

/-- The legal-play set written from the specification's words: a leader
may play anything once trump is broken, or any non-trump card, or
anything when the whole remaining hand is trump; a follower must follow
the lead suit when able and may otherwise play anything. -/
def specLegalPlay (trump : Option Suit) (trumpBroken : Bool)
    (currentTrick : List (Option Card)) (hand : List Card) (c : Card) : Prop :=
  match currentTrick.getD 0 none with
  | none =>
    c ∈ hand ∧ (trumpBroken = true ∨ trump ≠ some c.suit ∨ ∀ d ∈ hand, trump = some d.suit)
  | some lead =>
    c ∈ hand ∧ ((∃ d ∈ hand, d.suit = lead.suit) → c.suit = lead.suit)

/-- C1: `valid_cards` returns exactly the specified legal set — leading
with unbroken trump excludes trump cards unless the hand is all trump,
and following requires the lead suit exactly when the hand holds it. -/
theorem valid_cards_eq_spec_legal_set (trump : Option Suit) (trumpBroken : Bool)
    (currentTrick : List (Option Card)) (hand : List Card) (c : Card) :
    c ∈ valid_cards trump trumpBroken currentTrick hand ↔
      specLegalPlay trump trumpBroken currentTrick hand c := by
  unfold valid_cards specLegalPlay
  cases hslot : currentTrick.getD 0 none with
  | none =>
    simp only
    by_cases hguard : trump.isSome && !trumpBroken
    · rw [if_pos hguard]
      rcases Option.isSome_iff_exists.mp (Bool.and_elim_left hguard) with ⟨t, ht⟩
      have hbrk : trumpBroken = false := by
        have := Bool.and_elim_right hguard
        simpa using this
      subst ht hbrk
      by_cases hempty : (hand.filter (fun c => !((some t : Option Suit) == some c.suit))).isEmpty
      · rw [if_pos hempty]
        have hall : ∀ d ∈ hand, (some t : Option Suit) = some d.suit := by
          intro d hd
          have := (List.filter_eq_nil_iff).mp (List.isEmpty_iff.mp hempty) d hd
          simpa using this
        constructor
        · intro hc
          exact ⟨hc, Or.inr (Or.inr hall)⟩
        · intro hc
          exact hc.1
      · rw [if_neg hempty]
        constructor
        · intro hc
          have hc' := List.mem_filter.mp hc
          refine ⟨hc'.1, Or.inr (Or.inl ?_)⟩
          have := hc'.2
          simpa using this
        · intro hc
          rcases hc with ⟨hmem, hcase⟩
          rcases hcase with hbrk' | hne | hall
          · exact absurd hbrk' (by simp)
          · exact List.mem_filter.mpr ⟨hmem, by simpa using hne⟩
          · exact absurd (List.isEmpty_iff.mpr ((List.filter_eq_nil_iff).mpr
              (fun d hd => by simpa using hall d hd))) hempty
    · rw [if_neg hguard]
      have hcase : trump = none ∨ trumpBroken = true := by
        cases htr : trump with
        | none => exact Or.inl rfl
        | some t =>
          cases hb : trumpBroken with
          | true => exact Or.inr rfl
          | false => exact absurd (by simp [htr, hb]) hguard
      constructor
      · intro hc
        have hmem : c ∈ hand := by
          by_cases h : hand.isEmpty
          · rw [if_pos h] at hc; exact hc
          · rw [if_neg h] at hc; exact hc
        rcases hcase with h | h
        · exact ⟨hmem, Or.inr (Or.inl (by simp [h]))⟩
        · exact ⟨hmem, Or.inl h⟩
      · intro hc
        by_cases h : hand.isEmpty
        · rw [if_pos h]; exact hc.1
        · rw [if_neg h]; exact hc.1
  | some lead =>
    simp only
    by_cases hempty : (hand.filter (fun c => c.suit == lead.suit)).isEmpty
    · rw [if_pos hempty]
      have hnone : ∀ d ∈ hand, d.suit ≠ lead.suit := by
        intro d hd
        have := (List.filter_eq_nil_iff).mp (List.isEmpty_iff.mp hempty) d hd
        simpa using this
      constructor
      · intro hc
        refine ⟨hc, fun hex => ?_⟩
        rcases hex with ⟨d, hd, hds⟩
        exact absurd hds (hnone d hd)
      · intro hc
        exact hc.1
    · rw [if_neg hempty]
      have hex : ∃ d ∈ hand, d.suit = lead.suit := by
        have hne : hand.filter (fun c => c.suit == lead.suit) ≠ [] := by
          intro h
          exact hempty (List.isEmpty_iff.mpr h)
        rcases List.exists_mem_of_ne_nil _ hne with ⟨d, hd⟩
        have hd' := List.mem_filter.mp hd
        exact ⟨d, hd'.1, by simpa using hd'.2⟩
      constructor
      · intro hc
        have hc' := List.mem_filter.mp hc
        exact ⟨hc'.1, fun _ => by simpa using hc'.2⟩
      · intro hc
        exact List.mem_filter.mpr ⟨hc.1, by simpa using hc.2 hex⟩

/-- The error taxonomy of the engine. -/
inductive GameError
  | IllegalTurn
  | IllegalPhase
  | IllegalBid
  | IllegalCard
deriving DecidableEq, Repr

/-- The contract fixed when bidding closes: trump suit (none = NT),
tricks required, declarer seat. -/
structure Contract where
  trump : Option Suit
  tricks : Nat
  declarer : Nat
deriving DecidableEq, Repr

/-- Outcome of one bidding step: bidding continues with an updated
highest bid and pass counter, or closes on a contract, or the hand is
void and must be re-dealt. -/
inductive BidStep
  | next (highest : Option (Bid × Nat)) (passes : Nat)
  | closed (c : Contract)
  | redeal
deriving DecidableEq, Repr

/-- Modelled from the spec: the `submitBid` bidding ladder of
`bridge.py`, whose body is not in the repository.  A non-pass bid must
strictly exceed the current highest bid under the level-then-suit order
(else IllegalBid), becomes the new highest bid and resets the pass
counter.  A third consecutive pass closes bidding on the highest bid —
trump from its strain, tricks = level + 6, declarer = its bidder — or,
when no bid has been made, voids the hand for a re-deal. -/
def submitBid (highest : Option (Bid × Nat)) (passes : Nat) (seat : Nat)
    (a : BidAction) : Except GameError BidStep :=
  match a with
  | BidAction.bid b =>
    match highest with
    | some (hb, _) =>
      if bidGt b hb then Except.ok (BidStep.next (some (b, seat)) 0)
      else Except.error GameError.IllegalBid
    | none => Except.ok (BidStep.next (some (b, seat)) 0)
  | BidAction.pass =>
    if passes + 1 = 3 then
      match highest with
      | some (hb, d) =>
        Except.ok (BidStep.closed ⟨strainTrump hb.strain, hb.level + 6, d⟩)
      | none => Except.ok BidStep.redeal
    else Except.ok (BidStep.next highest (passes + 1))

/-- C3: every accepted non-pass bid strictly exceeds the previous
highest bid under the level-then-suit order, and a third consecutive
pass after a bid closes bidding on exactly that bid — trump from its
strain, tricks required = level + 6, declarer = the highest bidder. -/
theorem bidding_monotone_and_close :
    (∀ highest passes seat b r hb d, submitBid highest passes seat (BidAction.bid b) = Except.ok r →
      highest = some (hb, d) → bidGt b hb = true) ∧
    (∀ passes seat hb d, passes = 2 →
      submitBid (some (hb, d)) passes seat BidAction.pass =
        Except.ok (BidStep.closed ⟨strainTrump hb.strain, hb.level + 6, d⟩)) := by
  constructor
  · intro highest passes seat b r hb d hok hh
    subst hh
    by_cases hgt : bidGt b hb = true
    · exact hgt
    · simp [submitBid, hgt] at hok
  · intro passes seat hb d hp
    subst hp
    simp [submitBid]

/-- Witness for C3 at concrete inputs: an accepted raise of 1♣ to 1♥ is
strictly higher, and a third pass over a standing 2♥ bid from seat 1
closes on the 8-trick Hearts contract with declarer seat 1. -/
theorem bidding_monotone_and_close_witness :
    bidGt ⟨1, Strain.H⟩ ⟨1, Strain.C⟩ = true ∧
    submitBid (some (⟨2, Strain.H⟩, 1)) 2 3 BidAction.pass =
      Except.ok (BidStep.closed ⟨some Suit.H, 8, 1⟩) := by
  refine ⟨?_, ?_⟩
  · exact bidding_monotone_and_close.1 (some (⟨1, Strain.C⟩, 0)) 0 1 ⟨1, Strain.H⟩
      (BidStep.next (some (⟨1, Strain.H⟩, 1)) 0) ⟨1, Strain.C⟩ 0 rfl rfl
  · exact bidding_monotone_and_close.2 2 3 ⟨2, Strain.H⟩ 1 rfl

/-- C4: while no bid has been made, a pass never closes bidding on any
contract; a third consecutive pass with no standing bid voids the hand
for a re-deal instead. -/
theorem three_initial_passes_redeal (passes seat : Nat) :
    (∀ c, submitBid none passes seat BidAction.pass ≠ Except.ok (BidStep.closed c)) ∧
    (passes = 2 → submitBid none passes seat BidAction.pass = Except.ok BidStep.redeal) := by
  constructor
  · intro c h
    by_cases hp : passes + 1 = 3
    · simp [submitBid, hp] at h
    · simp [submitBid, hp] at h
  · intro hp
    subst hp
    simp [submitBid]

/-- Witness for C4 at a concrete input: the third initial pass (pass
counter at 2, seat 2, no standing bid) yields a re-deal, not a close. -/
theorem three_initial_passes_redeal_witness :
    (submitBid none 2 2 BidAction.pass ≠
      Except.ok (BidStep.closed ⟨some Suit.C, 7, 0⟩)) ∧
    submitBid none 2 2 BidAction.pass = Except.ok BidStep.redeal :=
  ⟨(three_initial_passes_redeal 2 2).1 ⟨some Suit.C, 7, 0⟩,
   (three_initial_passes_redeal 2 2).2 rfl⟩

/-- The four seats' cards of a completed trick, keyed by seat: seat 0 is
the leader, matching `currentTrick` in the backend. -/
def trickIdx (c0 c1 c2 c3 : Card) : List (Nat × Card) :=
  [(0, c0), (1, c1), (2, c2), (3, c3)]

/-- The trick entries whose card matches the trump suit. -/
def trickTrumps (trump : Option Suit) (c0 c1 c2 c3 : Card) : List (Nat × Card) :=
  (trickIdx c0 c1 c2 c3).filter (fun ic => trump == some ic.2.suit)

/-- Modelled from the spec: the candidate pool for trick resolution in
`complete_trick` of `bridge.py`, whose body is not in the repository —
the trump cards played if any, otherwise the cards of the lead suit
(the suit of seat 0's card). -/
def trickPool (trump : Option Suit) (c0 c1 c2 c3 : Card) : List (Nat × Card) :=
  if trickTrumps trump c0 c1 c2 c3 = [] then
    (trickIdx c0 c1 c2 c3).filter (fun ic => ic.2.suit == c0.suit)
  else trickTrumps trump c0 c1 c2 c3

/-- Modelled from the spec: the resolved winner of a completed trick —
the seat holding the highest-ranked card of the candidate pool. -/
def winnerPair (trump : Option Suit) (c0 c1 c2 c3 : Card) : Option (Nat × Card) :=
  (trickPool trump c0 c1 c2 c3).argmax (fun ic => ic.2.rank)

/-- Any entry of the seat-keyed trick list carries one of the four cards. -/
theorem snd_mem_of_mem_trickIdx {c0 c1 c2 c3 : Card} {j : Nat} {c : Card}
    (h : (j, c) ∈ trickIdx c0 c1 c2 c3) : c ∈ [c0, c1, c2, c3] := by
  simp only [trickIdx, List.mem_cons, List.not_mem_nil, or_false, Prod.mk.injEq] at h
  rcases h with ⟨_, rfl⟩ | ⟨_, rfl⟩ | ⟨_, rfl⟩ | ⟨_, rfl⟩ <;> simp

/-- Each of the four cards occupies some seat's entry. -/
theorem exists_mem_trickIdx {c0 c1 c2 c3 : Card} {c : Card}
    (h : c ∈ [c0, c1, c2, c3]) : ∃ j, (j, c) ∈ trickIdx c0 c1 c2 c3 := by
  simp only [List.mem_cons, List.not_mem_nil, or_false] at h
  rcases h with rfl | rfl | rfl | rfl
  · exact ⟨0, by simp [trickIdx]⟩
  · exact ⟨1, by simp [trickIdx]⟩
  · exact ⟨2, by simp [trickIdx]⟩
  · exact ⟨3, by simp [trickIdx]⟩

/-- C2: the resolved winner of a completed trick holds the
highest-ranked trump card when any trump was played, otherwise the
highest-ranked card of the lead suit; no card of a third suit wins. -/
theorem trick_winner_spec (trump : Option Suit) (c0 c1 c2 c3 : Card) (i : Nat) (w : Card)
    (hw : winnerPair trump c0 c1 c2 c3 = some (i, w)) :
    (i, w) ∈ trickIdx c0 c1 c2 c3 ∧
    ((∃ c ∈ [c0, c1, c2, c3], trump = some c.suit) →
       trump = some w.suit ∧ ∀ c ∈ [c0, c1, c2, c3], trump = some c.suit → c.rank ≤ w.rank) ∧
    ((¬ ∃ c ∈ [c0, c1, c2, c3], trump = some c.suit) →
       w.suit = c0.suit ∧ ∀ c ∈ [c0, c1, c2, c3], c.suit = c0.suit → c.rank ≤ w.rank) ∧
    (trump = some w.suit ∨ w.suit = c0.suit) := by
  have hargmax : (i, w) ∈ (trickPool trump c0 c1 c2 c3).argmax (fun ic => ic.2.rank) := hw
  have hwmem : (i, w) ∈ trickPool trump c0 c1 c2 c3 := List.argmax_mem hargmax
  by_cases htr : trickTrumps trump c0 c1 c2 c3 = []
  · have hpool : trickPool trump c0 c1 c2 c3 =
        (trickIdx c0 c1 c2 c3).filter (fun ic => ic.2.suit == c0.suit) := by
      simp [trickPool, htr]
    have hnotrump : ∀ c ∈ [c0, c1, c2, c3], trump ≠ some c.suit := by
      intro c hc habs
      rcases exists_mem_trickIdx hc with ⟨j, hj⟩
      have := (List.filter_eq_nil_iff).mp htr (j, c) hj
      simp [habs] at this
    rw [hpool] at hwmem
    have hw' := List.mem_filter.mp hwmem
    have hwsuit : w.suit = c0.suit := by simpa using hw'.2
    refine ⟨hw'.1, ?_, ?_, Or.inr hwsuit⟩
    · intro hex
      rcases hex with ⟨c, hc, hcs⟩
      exact absurd hcs (hnotrump c hc)
    · intro _
      refine ⟨hwsuit, ?_⟩
      intro c hc hcs
      rcases exists_mem_trickIdx hc with ⟨j, hj⟩
      have hjpool : (j, c) ∈ trickPool trump c0 c1 c2 c3 := by
        rw [hpool]
        exact List.mem_filter.mpr ⟨hj, by simpa using hcs⟩
      simpa using List.le_of_mem_argmax hjpool hargmax
  · have hpool : trickPool trump c0 c1 c2 c3 = trickTrumps trump c0 c1 c2 c3 := by
      simp [trickPool, htr]
    rw [hpool] at hwmem
    have hw' := List.mem_filter.mp hwmem
    have hwsuit : trump = some w.suit := by simpa using hw'.2
    refine ⟨hw'.1, ?_, ?_, Or.inl hwsuit⟩
    · intro _
      refine ⟨hwsuit, ?_⟩
      intro c hc hcs
      rcases exists_mem_trickIdx hc with ⟨j, hj⟩
      have hjpool : (j, c) ∈ trickPool trump c0 c1 c2 c3 := by
        rw [hpool]
        exact List.mem_filter.mpr ⟨hj, by simpa using hcs⟩
      simpa using List.le_of_mem_argmax hjpool hargmax
    · intro hnex
      exact absurd ⟨w, snd_mem_of_mem_trickIdx hw'.1, hwsuit⟩ hnex

/-- Witness for C2 at a concrete trick: Hearts led, seat 2 ruffs with
the ♠5 under trump Spades and wins over the ♥A lead and ♥K discard. -/
theorem trick_winner_spec_witness :
    winnerPair (some Suit.S) ⟨Suit.H, 14⟩ ⟨Suit.H, 9⟩ ⟨Suit.S, 5⟩ ⟨Suit.H, 13⟩ =
      some (2, ⟨Suit.S, 5⟩) ∧
    (some Suit.S : Option Suit) = some (⟨Suit.S, 5⟩ : Card).suit ∧
    (2, (⟨Suit.S, 5⟩ : Card)) ∈
      trickIdx ⟨Suit.H, 14⟩ ⟨Suit.H, 9⟩ ⟨Suit.S, 5⟩ ⟨Suit.H, 13⟩ := by
  have hw : winnerPair (some Suit.S) ⟨Suit.H, 14⟩ ⟨Suit.H, 9⟩ ⟨Suit.S, 5⟩ ⟨Suit.H, 13⟩ =
      some (2, ⟨Suit.S, 5⟩) := by
    decide
  have h := trick_winner_spec (some Suit.S) ⟨Suit.H, 14⟩ ⟨Suit.H, 9⟩ ⟨Suit.S, 5⟩ ⟨Suit.H, 13⟩
    2 ⟨Suit.S, 5⟩ hw
  exact ⟨hw, (h.2.1 ⟨⟨Suit.S, 5⟩, by simp, rfl⟩).1, h.1⟩

/-- Wash point value per rank: Ace=4, King=3, Queen=2, Jack=1, others 0. -/
def pointValue (r : Nat) : Nat :=
  if r = 14 then 4 else if r = 13 then 3 else if r = 12 then 2
  else if r = 11 then 1 else 0

/-- The number of cards of a given suit held in a hand. -/
def suitCount (hand : List Card) (s : Suit) : Nat :=
  (hand.filter (fun c => c.suit == s)).length

/-- One point for every card beyond the fourth within each suit held. -/
def lengthBonus (hand : List Card) : Nat :=
  ([Suit.C, Suit.D, Suit.H, Suit.S].map (fun s => suitCount hand s - 4)).sum

/-- A hand's playability score: rank points plus per-suit length bonus. -/
def handScore (hand : List Card) : Nat :=
  (hand.map (fun c => pointValue c.rank)).sum + lengthBonus hand

/-- Splitting a shuffled deck into four 13-card hands, seat by seat. -/
def dealHands (shuffle : List Card) : List (List Card) :=
  [shuffle.take 13, (shuffle.drop 13).take 13,
   (shuffle.drop 26).take 13, (shuffle.drop 39).take 13]

/-- A deal qualifies when every hand scores at least 4. -/
def dealOK (hands : List (List Card)) : Bool :=
  hands.all (fun h => 4 ≤ handScore h)

/-- Modelled from the spec: `dealAndValidate` of the Wash Evaluator,
whose body is not in the repository.  The randomness source is modelled
as the stream of shuffles it would produce; each shuffle is dealt into
four hands and the first deal in which every hand scores at least 4 is
returned, earlier deals being discarded ("washed"). -/
def dealAndValidate (shuffles : List (List Card)) : Option (List (List Card)) :=
  (shuffles.map dealHands).find? dealOK

/-- C5: every deal returned by `dealAndValidate` consists of four hands,
each of 13 cards when the shuffles are full 52-card decks, and each with
playability score at least 4; deals with any hand below 4 are never
returned. -/
theorem wash_deal_validated (shuffles : List (List Card)) (hands : List (List Card))
    (h52 : ∀ sh ∈ shuffles, sh.length = 52)
    (hret : dealAndValidate shuffles = some hands) :
    hands.length = 4 ∧ (∀ h ∈ hands, h.length = 13) ∧
    (∀ h ∈ hands, 4 ≤ handScore h) := by
  have hok : dealOK hands = true := List.find?_some hret
  have hmem : hands ∈ shuffles.map dealHands := List.mem_of_find?_eq_some hret
  rcases List.mem_map.mp hmem with ⟨sh, hsh, rfl⟩
  have hlen := h52 sh hsh
  refine ⟨rfl, ?_, ?_⟩
  · intro h hh
    simp only [dealHands, List.mem_cons, List.not_mem_nil, or_false] at hh
    rcases hh with rfl | rfl | rfl | rfl <;>
      simp [List.length_take, List.length_drop, hlen]
  · intro h hh
    have := List.all_eq_true.mp hok h hh
    simpa using this

/-- Witness for C5 at a concrete input: dealing the suit-ordered deck
gives each seat a complete 13-card suit, which `dealAndValidate`
accepts, and every such hand scores at least 4. -/
theorem wash_deal_validated_witness :
    (∀ sh ∈ [deck], sh.length = 52) ∧
    dealAndValidate [deck] = some (dealHands deck) ∧
    (∀ h ∈ dealHands deck, 4 ≤ handScore h) :=
  ⟨by decide, by decide,
   (wash_deal_validated [deck] (dealHands deck) (by decide) (by decide)).2.2⟩

/-- Contract point value: 2^(bid level − 1). -/
def contractValue (level : Nat) : Nat := 2 ^ (level - 1)

/-- Tricks required to make a contract of the given bid level. -/
def tricksRequired (level : Nat) : Nat := level + 6

/-- Whether a seat belongs to the declarer's side: the declarer and the
resolved partner (the declarer alone when the partner is the declarer). -/
def onDeclSide (declarer partner seat : Nat) : Bool :=
  seat == declarer || seat == partner

/-- The declarer's side's trick total: declarer plus partner, counted
once when the declarer self-called. -/
def sideTricks (declarer partner : Nat) (tricks : Nat → Nat) : Nat :=
  if partner = declarer then tricks declarer else tricks declarer + tricks partner

/-- Whether the declarer's side made the contract. -/
def madeContract (level declarer partner : Nat) (tricks : Nat → Nat) : Bool :=
  tricksRequired level ≤ sideTricks declarer partner tricks

/-- Modelled from the spec: the END-phase point award of the Scoring
Engine, whose body is not in the repository.  A seat receives the
contract's point value exactly when it is on the winning side — the
declarer's side if the contract was made, the opposing pair otherwise —
and nothing else. -/
def scoreAward (level declarer partner : Nat) (tricks : Nat → Nat) (seat : Nat) : Nat :=
  if onDeclSide declarer partner seat = madeContract level declarer partner tricks then
    contractValue level
  else 0

/-- C6: at END the award is 2^(level−1); the declarer's side receives it
exactly when it won at least the required trick count, the opposing
seats receive it otherwise, and the award depends on the trick tally
only through whether the contract was made — no overtrick bonus, no
extra undertrick penalty. -/
theorem scoring_award_spec (level declarer partner : Nat) (tricks : Nat → Nat)
    (_hlv : 1 ≤ level) (_hl7 : level ≤ 7) :
    (madeContract level declarer partner tricks = true →
      ∀ seat, scoreAward level declarer partner tricks seat =
        if onDeclSide declarer partner seat then 2 ^ (level - 1) else 0) ∧
    (madeContract level declarer partner tricks = false →
      ∀ seat, scoreAward level declarer partner tricks seat =
        if onDeclSide declarer partner seat then 0 else 2 ^ (level - 1)) ∧
    (∀ tricks2, madeContract level declarer partner tricks2 =
        madeContract level declarer partner tricks →
      ∀ seat, scoreAward level declarer partner tricks2 seat =
        scoreAward level declarer partner tricks seat) := by
  refine ⟨?_, ?_, ?_⟩
  · intro hm seat
    by_cases hs : onDeclSide declarer partner seat = true
    · simp [scoreAward, contractValue, hm, hs]
    · simp only [Bool.not_eq_true] at hs
      simp [scoreAward, contractValue, hm, hs]
  · intro hm seat
    by_cases hs : onDeclSide declarer partner seat = true
    · simp [scoreAward, contractValue, hm, hs]
    · simp only [Bool.not_eq_true] at hs
      simp [scoreAward, contractValue, hm, hs]
  · intro tricks2 heq seat
    simp [scoreAward, heq]

/-- Witness for C6 at Scenario D's numbers: level 2 (8 tricks required),
declarer seat 0 with partner seat 2; with 8 tricks the side is awarded
2 points each seat and the opponents 0, and with 7 tricks the award
flips to the opposing pair. -/
theorem scoring_award_spec_witness :
    scoreAward 2 0 2 (fun s => if s = 0 then 5 else if s = 2 then 3 else 0) 0 = 2 ∧
    scoreAward 2 0 2 (fun s => if s = 0 then 5 else if s = 2 then 3 else 0) 1 = 0 ∧
    scoreAward 2 0 2 (fun s => if s = 0 then 4 else if s = 2 then 3 else 0) 0 = 0 ∧
    scoreAward 2 0 2 (fun s => if s = 0 then 4 else if s = 2 then 3 else 0) 1 = 2 := by
  have hmade : madeContract 2 0 2 (fun s => if s = 0 then 5 else if s = 2 then 3 else 0) = true := by
    decide
  have hfail : madeContract 2 0 2 (fun s => if s = 0 then 4 else if s = 2 then 3 else 0) = false := by
    decide
  have h1 := (scoring_award_spec 2 0 2
    (fun s => if s = 0 then 5 else if s = 2 then 3 else 0) (by decide) (by decide)).1 hmade
  have h2 := (scoring_award_spec 2 0 2
    (fun s => if s = 0 then 4 else if s = 2 then 3 else 0) (by decide) (by decide)).2.1 hfail
  refine ⟨?_, ?_, ?_, ?_⟩
  · rw [h1 0]; decide
  · rw [h1 1]; decide
  · rw [h2 0]; decide
  · rw [h2 1]; decide

/-- Seat re-indexing after the players list is rotated so that seat `k`
becomes seat 0 (the backend keeps `players[0]` as the current leader). -/
def rotIdx (k j : Nat) : Nat := (j + 4 - k % 4) % 4

/-- Modelled from the spec: `submitBid` at the orchestrator level — the
`make_bid` path of `bridge.py`, whose body is not in the repository.
Rejected with IllegalPhase outside BID and IllegalTurn off turn; the
bidding ladder then either continues clockwise, closes on the contract
and hands the CALL phase to the declarer, or voids the hand. -/
def submitBidG (g : Game) (seat : Nat) (a : BidAction) : Except GameError Game :=
  if g.phase ≠ 1 then Except.error GameError.IllegalPhase
  else if g.activeIdx ≠ some seat then Except.error GameError.IllegalTurn
  else
    match submitBid g.bid g.passes seat a with
    | Except.error e => Except.error e
    | Except.ok (BidStep.next h p) =>
        Except.ok { g with bid := h, passes := p, activeIdx := some ((seat + 1) % 4) }
    | Except.ok (BidStep.closed ct) =>
        Except.ok { g with phase := 2, trump := ct.trump, contract := ct.tricks,
                           declarer := some ct.declarer, activeIdx := some ct.declarer }
    | Except.ok BidStep.redeal =>
        Except.ok { g with bid := none, passes := 0 }

/-- Modelled from the spec: `call_partner` of `bridge.py`, whose body is
not in the repository.  Rejected with IllegalPhase outside CALL and
IllegalTurn off turn; any card of the 52-card universe is accepted and
stored as the called card.  A card in the caller's own hand resolves the
partner to the declarer immediately; otherwise the partner stays hidden.
Play starts with the seat clockwise of the declarer, or the declarer
itself under No Trump, rotated to the front of the players list. -/
def callPartnerG (g : Game) (seat : Nat) (c : Card) : Except GameError Game :=
  if g.phase ≠ 2 then Except.error GameError.IllegalPhase
  else if g.activeIdx ≠ some seat then Except.error GameError.IllegalTurn
  else
    let leader := if g.trump = none then seat else (seat + 1) % 4
    Except.ok { g with
      players := g.players.rotate leader,
      declarer := g.declarer.map (rotIdx leader),
      partner := (if c ∈ (g.players.getD seat default).hand then g.declarer
                  else none).map (rotIdx leader),
      partnerCard := some c,
      phase := 3,
      activeIdx := some 0 }

/-- Modelled from the spec: `play_card` of `bridge.py`, whose body is
not in the repository.  Rejected with IllegalPhase outside PLAY,
IllegalTurn off turn, and IllegalCard when the card is not in hand or
not in `valid_cards`.  Otherwise the card moves from the hand to the
seat's trick slot, trump-broken is set when a trump card lands on a
trick whose lead suit is not trump, playing the called card resolves the
partner, and the turn advances clockwise while the trick is unfilled. -/
def playG (g : Game) (seat : Nat) (c : Card) : Except GameError Game :=
  if g.phase ≠ 3 then Except.error GameError.IllegalPhase
  else if g.activeIdx ≠ some seat then Except.error GameError.IllegalTurn
  else
    let p := g.players.getD seat default
    if c ∈ p.hand ∧ c ∈ validCardsG g p.hand then
      let newTrick := g.currentTrick.set seat (some c)
      let leadSuit := (newTrick.getD 0 none).map Card.suit
      Except.ok { g with
        players := g.players.set seat { p with hand := p.hand.erase c },
        currentTrick := newTrick,
        trumpBroken := g.trumpBroken ||
          (decide (g.trump = some c.suit) && decide (leadSuit ≠ g.trump)),
        partner := if g.partnerCard = some c then some seat else g.partner,
        activeIdx := if newTrick.all Option.isSome then g.activeIdx
                     else some ((seat + 1) % 4) }
    else Except.error GameError.IllegalCard

/-- A state-changing game action with its caller seat. -/
inductive GAction
  | bidA (seat : Nat) (a : BidAction)
  | callA (seat : Nat) (c : Card)
  | playA (seat : Nat) (c : Card)

/-- The phase in which each action is designated to run:
bid in BID (1), call in CALL (2), play in PLAY (3). -/
def designatedPhase : GAction → Nat
  | GAction.bidA _ _ => 1
  | GAction.callA _ _ => 2
  | GAction.playA _ _ => 3

/-- Dispatch of a state-changing action to its handler. -/
def applyAction (g : Game) (a : GAction) : Except GameError Game :=
  match a with
  | GAction.bidA seat b => submitBidG g seat b
  | GAction.callA seat c => callPartnerG g seat c
  | GAction.playA seat c => playG g seat c

/-- The state observed after an action: the new state on success, the
prior state untouched on failure. -/
def resultState (g : Game) (a : GAction) : Game :=
  match applyAction g a with
  | Except.ok g2 => g2
  | Except.error _ => g

/-- C7: every state-changing action invoked outside its designated phase
fails with IllegalPhase, and every failing action leaves the game state
exactly as it was — no partial mutation. -/
theorem illegal_phase_and_atomicity :
    (∀ g a, g.phase ≠ designatedPhase a →
      applyAction g a = Except.error GameError.IllegalPhase) ∧
    (∀ g a e, applyAction g a = Except.error e → resultState g a = g) := by
  constructor
  · intro g a h
    cases a with
    | bidA seat b =>
      simp only [designatedPhase] at h
      simp [applyAction, submitBidG, h]
    | callA seat c =>
      simp only [designatedPhase] at h
      simp [applyAction, callPartnerG, h]
    | playA seat c =>
      simp only [designatedPhase] at h
      simp [applyAction, playG, h]
  · intro g a e h
    unfold resultState
    rw [h]

/-- A JOIN-phase game used to witness phase rejection. -/
def joinGameEx : Game :=
  ⟨"g1", [], 0, none, none, 0, none, none, none, none, 0,
   [none, none, none, none], false⟩

/-- Witness for C7 at a concrete input: bidding during JOIN fails with
IllegalPhase and leaves the state unchanged. -/
theorem illegal_phase_and_atomicity_witness :
    applyAction joinGameEx (GAction.bidA 0 BidAction.pass) =
      Except.error GameError.IllegalPhase ∧
    resultState joinGameEx (GAction.bidA 0 BidAction.pass) = joinGameEx :=
  ⟨illegal_phase_and_atomicity.1 joinGameEx (GAction.bidA 0 BidAction.pass) (by decide),
   illegal_phase_and_atomicity.2 joinGameEx (GAction.bidA 0 BidAction.pass)
     GameError.IllegalPhase
     (illegal_phase_and_atomicity.1 joinGameEx (GAction.bidA 0 BidAction.pass) (by decide))⟩

/-- C9: in the CALL phase the declarer's call of any of the 52 cards is
accepted — including a card of the declarer's own hand, in which case
the partner is resolved to the declarer itself and revealed immediately
rather than staying hidden. -/
theorem call_partner_any_card_self_reveal (g : Game) (seat d : Nat) (c : Card)
    (hphase : g.phase = 2) (hactive : g.activeIdx = some seat)
    (hdecl : g.declarer = some d) :
    (∃ g2, callPartnerG g seat c = Except.ok g2) ∧
    (c ∈ (g.players.getD seat default).hand →
      ∃ g2, callPartnerG g seat c = Except.ok g2 ∧
        g2.partnerCard = some c ∧ g2.partner = g2.declarer ∧ g2.partner ≠ none) := by
  constructor
  · cases hres : callPartnerG g seat c with
    | error e => simp [callPartnerG, hphase, hactive] at hres
    | ok g2 => exact ⟨g2, rfl⟩
  · intro hmem
    cases hres : callPartnerG g seat c with
    | error e => simp [callPartnerG, hphase, hactive] at hres
    | ok g2 =>
      simp only [callPartnerG, hphase, hactive] at hres
      simp only [if_neg (by simp : ¬(2 : Nat) ≠ 2),
        if_neg (fun h => h rfl : ¬some seat ≠ some seat), Except.ok.injEq] at hres
      have hmem2 : c ∈ (g.players[seat]?.getD default).hand := by
        simpa using hmem
      refine ⟨g2, rfl, ?_, ?_, ?_⟩ <;> rw [← hres] <;> simp [hmem2, hdecl]

/-- A CALL-phase game used to witness the self-call: seat 0 is declarer
and holds the ♠A. -/
def callGameEx : Game :=
  ⟨"g2", [⟨"u0", "ann", [⟨Suit.S, 14⟩], false, 0⟩,
          ⟨"u1", "bob", [⟨Suit.H, 2⟩], false, 0⟩,
          ⟨"u2", "cat", [⟨Suit.D, 2⟩], false, 0⟩,
          ⟨"u3", "dan", [⟨Suit.C, 2⟩], true, 0⟩],
   2, some 0, some (⟨1, Strain.S⟩, 0), 0, some 0, none, none, some Suit.S, 7,
   [none, none, none, none], false⟩

/-- Witness for C9 at a concrete input: the declarer calls the ♠A held
in their own hand; the call is accepted, the partner is the declarer and
is revealed at once. -/
theorem call_partner_any_card_self_reveal_witness :
    (⟨Suit.S, 14⟩ : Card) ∈ (callGameEx.players.getD 0 default).hand ∧
    ∃ g2, callPartnerG callGameEx 0 ⟨Suit.S, 14⟩ = Except.ok g2 ∧
      g2.partnerCard = some ⟨Suit.S, 14⟩ ∧ g2.partner = g2.declarer ∧ g2.partner ≠ none :=
  ⟨by decide,
   (call_partner_any_card_self_reveal callGameEx 0 0 ⟨Suit.S, 14⟩ rfl rfl rfl).2 (by decide)⟩

/-- The public per-player entry of a snapshot: id, name, tricks only. -/
structure PlayerPublic where
  id : String
  name : String
  tricks : Nat
deriving DecidableEq, Repr

/-- The per-viewer game snapshot returned by the `/api/game` endpoint,
field for field as built by `get_game` in the backend. -/
structure Snapshot where
  phase : String
  activePlayerId : Option String
  players : List PlayerPublic
  hand : List Card
  validCards : List Card
  validBids : List BidAction
  currentTrick : List (Option Card)
  trump : Option Suit
  contract : Nat
  declarer : Option (String × String)
  partnerCard : Option Card
deriving DecidableEq, Repr

instance : Inhabited Snapshot :=
  ⟨⟨"", none, [], [], [], [], [], none, 0, none, none⟩⟩

/-- The phase names indexed 0–4, as in the backend's lookup list. -/
def phaseName (n : Nat) : String :=
  ["JOIN", "BID", "CALL", "PLAY", "END"].getD n ""

/-- All 35 bids, level 1–7 by strain, in ladder order. -/
def allBids : List Bid :=
  (List.range 7).flatMap fun l =>
    [Strain.C, Strain.D, Strain.H, Strain.S, Strain.NT].map fun st => ⟨l + 1, st⟩

/-- Modelled from the spec: `valid_bids` of `bridge.py`, whose body is
not in the repository — PASS together with every bid strictly above the
current highest bid (every bid when none has been made). -/
def valid_bids (g : Game) : List BidAction :=
  BidAction.pass ::
    (allBids.filter fun b =>
      match g.bid with
      | none => true
      | some (hb, _) => bidGt b hb).map BidAction.bid

/-- `get_game`, embedded from the backend source: looks the viewer up
among the game's players (none = 404), then returns the snapshot — the
viewer's own hand, `valid_cards` of that hand only during PLAY,
`valid_bids` only during BID, public player info, trick, trump,
contract, declarer id/name, and the called partner card as stored. -/
def get_game (g : Game) (userId : String) : Option Snapshot :=
  match g.players.find? (fun p => p.id == userId) with
  | none => none
  | some player =>
    some
      { phase := phaseName g.phase
        activePlayerId := g.activeIdx.map fun i => (g.players.getD i default).id
        players := g.players.map fun p => ⟨p.id, p.name, p.tricks⟩
        hand := player.hand
        validCards := if g.phase = 3 then validCardsG g player.hand else []
        validBids := if g.phase = 1 then valid_bids g else []
        currentTrick := g.currentTrick
        trump := g.trump
        contract := g.contract
        declarer := g.declarer.map fun i =>
          ((g.players.getD i default).id, (g.players.getD i default).name)
        partnerCard := g.partnerCard }

/-- C10: a member's snapshot has empty `validCards` outside PLAY and
empty `validBids` outside BID; within PLAY the card list is computed
from the requesting player's own hand and within BID the bid list from
the game's bidding state, with no dependence on who is active. -/
theorem snapshot_valid_lists_phase (g : Game) (uid : String) (s : Snapshot) (p : Player)
    (hfind : g.players.find? (fun q => q.id == uid) = some p)
    (hs : get_game g uid = some s) :
    (g.phase ≠ 3 → s.validCards = []) ∧ (g.phase ≠ 1 → s.validBids = []) ∧
    (g.phase = 3 → s.validCards = validCardsG g p.hand) ∧
    (g.phase = 1 → s.validBids = valid_bids g) := by
  unfold get_game at hs
  rw [hfind] at hs
  simp only [Option.some.injEq] at hs
  subst hs
  refine ⟨?_, ?_, ?_, ?_⟩
  · intro h
    simp [h]
  · intro h
    simp [h]
  · intro h
    simp [h]
  · intro h
    simp [h]

/-- A PLAY-phase game used to witness snapshot behaviour: seat 0 is
active, the viewer `u1` is not. -/
def playGameEx : Game :=
  ⟨"g3", [⟨"u0", "ann", [⟨Suit.C, 3⟩, ⟨Suit.S, 7⟩], false, 0⟩,
          ⟨"u1", "bob", [⟨Suit.D, 4⟩, ⟨Suit.S, 9⟩], false, 0⟩,
          ⟨"u2", "cat", [⟨Suit.H, 5⟩], false, 0⟩,
          ⟨"u3", "dan", [⟨Suit.C, 6⟩], false, 0⟩],
   3, some 0, some (⟨1, Strain.S⟩, 0), 0, some 0, some ⟨Suit.S, 14⟩, none,
   some Suit.S, 7, [none, none, none, none], false⟩

/-- The snapshot `get_game` hands the non-active viewer `u1`. -/
def snapU1 : Snapshot := (get_game playGameEx "u1").getD default

/-- The `u1` player record of `playGameEx`. -/
def playerU1 : Player := ⟨"u1", "bob", [⟨Suit.D, 4⟩, ⟨Suit.S, 9⟩], false, 0⟩

/-- Witness for C10 at a concrete input: for the non-active viewer `u1`
in PLAY, the snapshot's validCards equal `valid_cards` of `u1`'s own
hand (and are not empty), and validBids are empty. -/
theorem snapshot_valid_lists_phase_witness :
    playGameEx.players.find? (fun q => q.id == "u1") = some playerU1 ∧
    get_game playGameEx "u1" = some snapU1 ∧
    playGameEx.activeIdx ≠ some 1 ∧
    snapU1.validCards = validCardsG playGameEx playerU1.hand ∧
    snapU1.validCards ≠ [] ∧
    snapU1.validBids = [] := by
  refine ⟨by decide, by decide, by decide, ?_, by decide, ?_⟩
  · exact (snapshot_valid_lists_phase playGameEx "u1" snapU1 playerU1
      (by decide) (by decide)).2.2.1 rfl
  · exact (snapshot_valid_lists_phase playGameEx "u1" snapU1 playerU1
      (by decide) (by decide)).2.1 (by decide)

/-- A PLAY-phase game with an unrevealed partner: the ♠A was called by
declarer seat 0 (`u0`) and `partner` is still unresolved. -/
def leakGameEx : Game :=
  ⟨"g4", [⟨"u0", "ann", [⟨Suit.C, 3⟩], false, 0⟩,
          ⟨"u1", "bob", [⟨Suit.D, 4⟩], false, 0⟩,
          ⟨"u2", "cat", [⟨Suit.H, 5⟩], false, 0⟩,
          ⟨"u3", "dan", [⟨Suit.S, 14⟩], false, 0⟩],
   3, some 0, some (⟨1, Strain.S⟩, 0), 0, some 0, some ⟨Suit.S, 14⟩, none,
   some Suit.S, 7, [none, none, none, none], false⟩

/-- C8 counterexample: the snapshot hands the called partner card to a
viewer (`u1`) who is not the declarer while the partner is still
unrevealed — `get_game` returns `partnerCard` unconditionally, so the
claimed "only if revealed or viewer is declarer" condition fails. -/
theorem snapshot_partner_card_leak :
    leakGameEx.partner = none ∧
    leakGameEx.declarer = some 0 ∧
    (leakGameEx.players.getD 0 default).id = "u0" ∧
    "u0" ≠ "u1" ∧
    (get_game leakGameEx "u1").map Snapshot.partnerCard =
      some (some ⟨Suit.S, 14⟩) := by
  refine ⟨rfl, rfl, rfl, by decide, by decide⟩

/-- The viewer's masked view of a game: every other player's hand is
blanked while all public fields stay put. -/
def maskOtherHands (g : Game) (uid : String) : Game :=
  { g with players := g.players.map fun p =>
      if p.id == uid then p else { p with hand := [] } }

/-- C8 amended: a member's snapshot contains only the viewer's own hand
and is unchanged when every other player's hand is blanked — it carries
no other hand's content — while the called partner card is included
whenever set, for every viewer, revealed or not; the resolved partner
identity is not a snapshot field. -/
theorem snapshot_hand_privacy_amended (g : Game) (uid : String) (s : Snapshot) (p : Player)
    (hfind : g.players.find? (fun q => q.id == uid) = some p)
    (hs : get_game g uid = some s) :
    s.hand = p.hand ∧ s.partnerCard = g.partnerCard ∧
    get_game (maskOtherHands g uid) uid = get_game g uid := by
  have hsfields : s.hand = p.hand ∧ s.partnerCard = g.partnerCard := by
    unfold get_game at hs
    rw [hfind] at hs
    simp only [Option.some.injEq] at hs
    subst hs
    exact ⟨rfl, rfl⟩
  have hid : ∀ q : Player,
      ((if q.id == uid then q else { q with hand := [] }) : Player).id = q.id := by
    intro q
    by_cases h : q.id == uid <;> simp [h]
  have hname : ∀ q : Player,
      ((if q.id == uid then q else { q with hand := [] }) : Player).name = q.name := by
    intro q
    by_cases h : q.id == uid <;> simp [h]
  have htricks : ∀ q : Player,
      ((if q.id == uid then q else { q with hand := [] }) : Player).tricks = q.tricks := by
    intro q
    by_cases h : q.id == uid <;> simp [h]
  have hfp : (if p.id == uid then p else { p with hand := [] }) = p := by
    have hbeq : (p.id == uid) = true := by
      have h0 := List.find?_some hfind
      exact h0
    rw [hbeq]
    simp
  have hfindm : (maskOtherHands g uid).players.find? (fun q => q.id == uid) = some p := by
    unfold maskOtherHands
    rw [List.find?_map]
    have hcomp : ((fun q : Player => q.id == uid) ∘
        fun q : Player => if q.id == uid then q else { q with hand := [] }) =
        fun q : Player => q.id == uid := by
      funext q
      simp only [Function.comp]
      rw [hid q]
    rw [hcomp, hfind]
    exact congrArg some hfp
  have hgetid : ∀ i, (((maskOtherHands g uid).players.getD i default)).id =
      ((g.players.getD i default)).id := by
    intro i
    unfold maskOtherHands
    simp only [List.getD_eq_getElem?_getD, List.getElem?_map]
    cases g.players[i]? with
    | none => rfl
    | some q =>
      simp only [Option.map_some, Option.getD_some]
      exact hid q
  have hgetname : ∀ i, (((maskOtherHands g uid).players.getD i default)).name =
      ((g.players.getD i default)).name := by
    intro i
    unfold maskOtherHands
    simp only [List.getD_eq_getElem?_getD, List.getElem?_map]
    cases g.players[i]? with
    | none => rfl
    | some q =>
      simp only [Option.map_some, Option.getD_some]
      exact hname q
  have hactm : (maskOtherHands g uid).activeIdx = g.activeIdx := rfl
  have hdecm : (maskOtherHands g uid).declarer = g.declarer := rfl
  have hmap1 : (fun i => (((maskOtherHands g uid).players.getD i default)).id) =
      (fun i => ((g.players.getD i default)).id) := funext hgetid
  have hmap2 : (fun i => ((((maskOtherHands g uid).players.getD i default)).id,
        (((maskOtherHands g uid).players.getD i default)).name)) =
      (fun i => (((g.players.getD i default)).id, ((g.players.getD i default)).name)) := by
    funext i
    rw [hgetid i, hgetname i]
  have hpl : (maskOtherHands g uid).players.map
        (fun q => PlayerPublic.mk q.id q.name q.tricks) =
      g.players.map (fun q => PlayerPublic.mk q.id q.name q.tricks) := by
    unfold maskOtherHands
    rw [List.map_map]
    apply List.map_congr_left
    intro q _
    simp only [Function.comp]
    rw [hid q, hname q, htricks q]
  refine ⟨hsfields.1, hsfields.2, ?_⟩
  unfold get_game
  rw [hfindm, hfind]
  apply congrArg some
  rw [hmap1, hactm, hmap2, hdecm, hpl]
  rfl

/-- Witness for C8's amended statement at a concrete input: viewer `u1`
of `leakGameEx` sees exactly their own hand and the stored partner card,
and blanking the other three hands leaves their snapshot untouched. -/
theorem snapshot_hand_privacy_amended_witness :
    leakGameEx.players.find? (fun q => q.id == "u1") =
      some ⟨"u1", "bob", [⟨Suit.D, 4⟩], false, 0⟩ ∧
    get_game leakGameEx "u1" = some ((get_game leakGameEx "u1").getD default) ∧
    ((get_game leakGameEx "u1").getD default).hand = [⟨Suit.D, 4⟩] ∧
    ((get_game leakGameEx "u1").getD default).partnerCard = leakGameEx.partnerCard ∧
    get_game (maskOtherHands leakGameEx "u1") "u1" = get_game leakGameEx "u1" := by
  have h := snapshot_hand_privacy_amended leakGameEx "u1"
    ((get_game leakGameEx "u1").getD default)
    ⟨"u1", "bob", [⟨Suit.D, 4⟩], false, 0⟩ (by decide) (by decide)
  exact ⟨by decide, by decide, h.1, h.2.1, h.2.2⟩
